import Mathlib

/-!
Verification of the ingestion-and-split stage of the engineeringdocumentflow
repository: a shallow embedding of `internal/services/pdf_splitter.go`
(`Process`, `isDuplicate`, `createInitialDocument`, `optimizeAndPrepare`,
`uploadSplitPages`, `triggerWorkflow`, `handleError`, `updateStatus`,
`uploadFile`) and of the shared `gcp.SaveToGCSAtomically` utility, together
with theorems settling the specification's claims about them.

External calls (GCS download, Firestore queries and writes, pdfcpu calls,
workflow execution) are modelled by an environment of outcomes; the embedding
reproduces the Go control flow over those outcomes and records the write
effects the run performs, in order.
-/

/-! ## Write effects performed by one ingestion run -/

/-- One observable write effect of an ingestion run: a successful ledger
record creation (`firestoreClient.Collection(...).Add`, status `VALIDATING`),
a successful ledger field update (`docRef.Update`), the start of one page
upload, the workflow handoff (`CreateExecution`), or the deferred
`os.RemoveAll(tempDir)`. -/
inductive Effect where
  | createRecord (fileHash : String) (originalFilename : String) (status : String)
  | updateRecord (docID : String) (status : String) (errorDetails : Option String) (pageCount : Option Nat)
  | uploadPage (objectKey : String)
  | triggerWorkflow (docID : String) (pageCount : Nat)
  | removeTempDir
  deriving DecidableEq, Repr

/-- Outcomes of the external calls made by `Process`, in program order.
Each field is the result the corresponding call would return:
`Except.ok` for success, `Except.error msg` for failure with message `msg`. -/
structure Env where
  tempDir : Except String Unit
  download : Except String Unit
  fileHash : Except String String
  dupQuery : Except String (List String)
  createDoc : Except String String
  optimize : Except String Unit
  pageCountRes : Except String Nat
  split : Except String Unit
  updateSplitting : Except String Unit
  uploadAggregate : Except String Unit
  marshal : Except String Unit
  createExecution : Except String Unit
  updateFailed : Except String Unit

/-! ## Page artifact naming (`uploadSplitPages` key construction) -/

/-- Decimal digit character, as produced by Go `fmt` for a digit 0-9. -/
def digitChar : Nat → Char
  | 0 => '0' | 1 => '1' | 2 => '2' | 3 => '3' | 4 => '4'
  | 5 => '5' | 6 => '6' | 7 => '7' | 8 => '8' | _ => '9'

/-- Fuel-indexed decimal representation (most significant digit first),
embedding Go `fmt`'s `%d` rendering of a non-negative integer. -/
def decimalReprAux : Nat → Nat → List Char
  | 0, _ => []
  | fuel + 1, n =>
    if n < 10 then [digitChar n]
    else decimalReprAux fuel (n / 10) ++ [digitChar (n % 10)]

/-- Decimal representation of `n`, most significant digit first (Go `%d`). -/
def decimalRepr (n : Nat) : List Char := decimalReprAux (n + 1) n

/-- Character list of Go `fmt.Sprintf("%05d", n)`: the decimal representation
left-padded with zeros to a minimum width of 5. -/
def pad5 (n : Nat) : List Char :=
  List.replicate (5 - (decimalRepr n).length) '0' ++ decimalRepr n

/-- Remote object key assigned to one page by `uploadSplitPages`:
`fmt.Sprintf("%s/%05d.pdf", docRef.ID, pageNumber)`. -/
def gcsDestObject (docID : String) (page : Nat) : String :=
  docID ++ "/" ++ String.mk (pad5 page) ++ ".pdf"

/-- Remote keys assigned by the `for i := 1; i <= pageCount; i++` loop of
`uploadSplitPages`, in page order. -/
def uploadSplitPagesKeys (docID : String) (pageCount : Nat) : List String :=
  (List.range pageCount).map (fun k => gcsDestObject docID (k + 1))

/-! ## Embedding of the `Process` pipeline -/

/-- Embedding of `updateStatus`: one `docRef.Update` carrying the status and,
when `errDetails` is non-empty, the `errorDetails` field. The effect is
recorded only when the Firestore update (outcome `env.updateFailed`)
succeeds; the returned value is the update call's own result. -/
def updateStatusGo (env : Env) (docID status errDetails : String) :
    Except String Unit × List Effect :=
  match env.updateFailed with
  | .ok _ =>
    (.ok (), [Effect.updateRecord docID status
      (if errDetails = "" then none else some errDetails) none])
  | .error m => (.error m, [])

/-- Embedding of `handleError`: builds `fullError = message ++ ": " ++ origErr`,
attempts a best-effort update of the record to `FAILED` with `fullError` as
error details (a failure of that update is only logged), and returns
`fullError` as the error to propagate. -/
def handleErrorGo (env : Env) (docID message origErr : String) :
    String × List Effect :=
  let fullError := message ++ ": " ++ origErr
  let upd := updateStatusGo env docID "FAILED" fullError
  (fullError, upd.2)

/-- Embedding of `optimizeAndPrepare`: optimize, page count, split, then the
`status=SPLITTING` update persisting `pageCount`; every failure goes through
`handleError`. -/
def optimizeAndPrepareGo (env : Env) (docID : String) :
    Except String Nat × List Effect :=
  match env.optimize with
  | .error m =>
    let he := handleErrorGo env docID "failed to validate/optimize PDF" m
    (.error he.1, he.2)
  | .ok _ =>
    match env.pageCountRes with
    | .error m =>
      let he := handleErrorGo env docID "failed to get page count" m
      (.error he.1, he.2)
    | .ok n =>
      match env.split with
      | .error m =>
        let he := handleErrorGo env docID "failed to split PDF" m
        (.error he.1, he.2)
      | .ok _ =>
        match env.updateSplitting with
        | .error m =>
          let he := handleErrorGo env docID "failed to update status to SPLITTING" m
          (.error he.1, he.2)
        | .ok _ => (.ok n, [Effect.updateRecord docID "SPLITTING" none (some n)])

/-- Embedding of `uploadSplitPages`: starts one upload per page key (every
page goroutine is launched by the errgroup), then the aggregate `eg.Wait`
result; an aggregate failure goes through `handleError`. -/
def uploadSplitPagesGo (env : Env) (docID : String) (pageCount : Nat) :
    Except String Unit × List Effect :=
  let uploads := (uploadSplitPagesKeys docID pageCount).map Effect.uploadPage
  match env.uploadAggregate with
  | .error m =>
    let he := handleErrorGo env docID "one or more pages failed to upload" m
    (.error he.1, uploads ++ he.2)
  | .ok _ => (.ok (), uploads)

/-- Embedding of `triggerWorkflow`: marshal the `{documentId, pageCount}`
payload, then `CreateExecution`; each failure goes through `handleError`. -/
def triggerWorkflowGo (env : Env) (docID : String) (pageCount : Nat) :
    Except String Unit × List Effect :=
  match env.marshal with
  | .error m =>
    let he := handleErrorGo env docID "failed to marshal workflow payload" m
    (.error he.1, he.2)
  | .ok _ =>
    match env.createExecution with
    | .error m =>
      let he := handleErrorGo env docID "failed to trigger workflow execution" m
      (.error he.1, he.2)
    | .ok _ => (.ok (), [Effect.triggerWorkflow docID pageCount])

/-- Trigger event: the bucket and object name of the newly uploaded file. -/
structure GCSEvent where
  bucket : String
  name : String

/-- Body of `Process` after the temp directory exists: download, hash,
duplicate query (clean exit when a record with the same hash is found),
record creation, optimize-and-prepare, page upload, workflow handoff. -/
def processBodyGo (env : Env) (e : GCSEvent) : Except String Unit × List Effect :=
  match env.download with
  | .error m => (.error m, [])
  | .ok _ =>
    match env.fileHash with
    | .error m => (.error ("failed to calculate file hash: " ++ m), [])
    | .ok fh =>
      match env.dupQuery with
      | .error m => (.error ("failed to query for duplicates: " ++ m), [])
      | .ok docs =>
        if 0 < docs.length then (.ok (), [])
        else
          match env.createDoc with
          | .error m => (.error ("failed to create master document: " ++ m), [])
          | .ok docID =>
            let createEff := Effect.createRecord fh e.name "VALIDATING"
            match optimizeAndPrepareGo env docID with
            | (.error m, effs1) => (.error m, createEff :: effs1)
            | (.ok n, effs1) =>
              match uploadSplitPagesGo env docID n with
              | (.error m, effs2) => (.error m, createEff :: (effs1 ++ effs2))
              | (.ok _, effs2) =>
                match triggerWorkflowGo env docID n with
                | (.error m, effs3) => (.error m, createEff :: (effs1 ++ effs2 ++ effs3))
                | (.ok _, effs3) => (.ok (), createEff :: (effs1 ++ effs2 ++ effs3))

/-- Embedding of `Process`: temp directory creation first (its failure returns
before the `defer os.RemoveAll` is registered); on every other path the
deferred removal runs at function exit, after all other effects. -/
def processGo (env : Env) (e : GCSEvent) : Except String Unit × List Effect :=
  match env.tempDir with
  | .error m => (.error ("failed to create temp dir: " ++ m), [])
  | .ok _ =>
    let body := processBodyGo env e
    (body.1, body.2 ++ [Effect.removeTempDir])

/-- Status carried by a ledger write effect, if any: a record is created with
status `VALIDATING`, and updates carry their new status. -/
def effectStatus : Effect → Option String
  | .createRecord _ _ s => some s
  | .updateRecord _ s _ _ => some s
  | _ => none

/-- Sequence of ledger statuses written during a run, in order. -/
def statusTrace (t : List Effect) : List String := t.filterMap effectStatus

/-- Checks that no page upload is started before a ledger update that sets
status `SPLITTING` together with a `pageCount` value. -/
def uploadsAfterPageCountPersisted : List Effect → Bool
  | [] => true
  | Effect.uploadPage _ :: _ => false
  | Effect.updateRecord _ "SPLITTING" _ (some _) :: _ => true
  | _ :: rest => uploadsAfterPageCountPersisted rest

/-! ## Embedding of `uploadFile` (retry loop with backoff) -/

/-- Result of one `uploadFile` call. -/
inductive UploadResult where
  | ok
  | cancelled (ctxErr : String)
  | failedAllRetries (destObject : String) (lastErr : String)
  deriving DecidableEq, Repr

/-- Observable outcome of one `uploadFile` call: the returned value, the
number of upload attempts made, and the backoff waits (in seconds) that ran
to completion, in order. -/
structure UploadOutcome where
  result : UploadResult
  attemptsMade : Nat
  completedWaits : List Nat
  deriving DecidableEq, Repr

/-- One step of the `for i := 0; i < maxRetries; i++` loop of `uploadFile`.
`attempt i` is the outcome of the `i`-th upload attempt (`none` = success,
`some e` = failure with error `e`); `cancelDuringWait i` tells whether the
context is cancelled before the backoff wait after attempt `i` completes
(the `select` between `time.After(backoff)` and `ctx.Done()`). On loop exit
the last error is wrapped into the
`upload for ... failed after all retries` error. -/
def uploadFileFrom (attempt : Nat → Option String) (cancelDuringWait : Nat → Bool)
    (ctxErr destObject : String) :
    Nat → Nat → Nat → Option String → Nat → List Nat → UploadOutcome
  | 0, _, _, lastErr, attempts, waits =>
    ⟨.failedAllRetries destObject (lastErr.getD ""), attempts, waits⟩
  | remaining + 1, i, backoff, _, attempts, waits =>
    match attempt i with
    | none => ⟨.ok, attempts + 1, waits⟩
    | some e =>
      if cancelDuringWait i then ⟨.cancelled ctxErr, attempts + 1, waits⟩
      else uploadFileFrom attempt cancelDuringWait ctxErr destObject
        remaining (i + 1) (backoff * 2) (some e) (attempts + 1) (waits ++ [backoff])

/-- Embedding of `uploadFile`: `maxRetries = 4`, initial backoff 1 second,
doubling after each completed wait. -/
def uploadFileGo (attempt : Nat → Option String) (cancelDuringWait : Nat → Bool)
    (ctxErr destObject : String) : UploadOutcome :=
  uploadFileFrom attempt cancelDuringWait ctxErr destObject 4 0 1 none 0 []

/-! ## Embedding of `gcp.SaveToGCSAtomically` -/

/-- Outcome of one step (the `io.Copy` or the `writer.Close`) of the
conditional GCS write: success, a precondition failure (`googleapi.Error`
with code 412, the object already exists), or any other failure. -/
inductive WriteStep where
  | ok
  | precondFail (msg : String)
  | otherErr (msg : String)
  deriving DecidableEq, Repr

/-- Embedding of `SaveToGCSAtomically`: the copy-error branch treats a 412
precondition failure as success and wraps any other copy error; the
close (finalize) branch wraps every error, with no 412 check. -/
def saveToGCSAtomically (copyStep closeStep : WriteStep) : Except String Unit :=
  match copyStep with
  | .precondFail _ => .ok ()
  | .otherErr m => .error ("failed to write to GCS: " ++ m)
  | .ok =>
    match closeStep with
    | .ok => .ok ()
    | .precondFail m => .error ("failed to finalize GCS write: " ++ m)
    | .otherErr m => .error ("failed to finalize GCS write: " ++ m)

/-- Store semantics of the conditional (`DoesNotExist`) write: the new
content is committed only when both the copy and the finalize succeed;
on any failing step the store is unchanged. -/
def conditionalCreateStore (store : String → Option String)
    (objectName content : String) (copyStep closeStep : WriteStep) :
    String → Option String :=
  match copyStep, closeStep with
  | .ok, .ok => fun n => if n = objectName then some content else store n
  | _, _ => store

/-! ## Helper lemmas: strings -/

lemma append_ne_empty {s : String} (t : String) (hs : s.length ≠ 0) :
    s ++ t ≠ "" := by
  intro h
  have hl := congrArg String.length h
  simp only [String.length_append, String.length_empty] at hl
  omega

lemma colon_append_ne_empty (msg om : String) : msg ++ ": " ++ om ≠ "" := by
  intro h
  have hl := congrArg String.length h
  have h2 : (": " : String).length = 2 := rfl
  simp only [String.length_append, String.length_empty, h2] at hl
  omega

/-! ## Helper lemmas: decimal representation and key ordering -/

lemma digitChar_lt_digitChar {a b : Nat} (hab : a < b) (hb : b < 10) :
    digitChar a < digitChar b := by
  interval_cases b <;> interval_cases a <;> decide

lemma zero_lt_digitChar {d : Nat} (h1 : 1 ≤ d) (h9 : d < 10) : '0' < digitChar d := by
  interval_cases d <;> decide

lemma decimalReprAux_stable : ∀ f₁ f₂ n, n < f₁ → n < f₂ →
    decimalReprAux f₁ n = decimalReprAux f₂ n := by
  intro f₁
  induction f₁ with
  | zero => intro f₂ n h; omega
  | succ f ih =>
    intro f₂ n h₁ h₂
    cases f₂ with
    | zero => omega
    | succ f₂ =>
      simp only [decimalReprAux]
      by_cases h10 : n < 10
      · simp [h10]
      · have hd : n / 10 < n := Nat.div_lt_self (by omega) (by omega)
        simp only [if_neg h10]
        rw [ih f₂ (n / 10) (by omega) (by omega)]

lemma decimalRepr_lt10 {n : Nat} (h : n < 10) : decimalRepr n = [digitChar n] := by
  simp [decimalRepr, decimalReprAux, h]

lemma decimalRepr_ge10 {n : Nat} (h : 10 ≤ n) :
    decimalRepr n = decimalRepr (n / 10) ++ [digitChar (n % 10)] := by
  have hd : n / 10 < n := Nat.div_lt_self (by omega) (by omega)
  simp only [decimalRepr]
  conv_lhs => rw [decimalReprAux]
  rw [if_neg (by omega : ¬ n < 10),
    decimalReprAux_stable n (n / 10 + 1) (n / 10) (by omega) (by omega)]

lemma decimalRepr_ne_nil (n : Nat) : decimalRepr n ≠ [] := by
  by_cases h : n < 10
  · simp [decimalRepr_lt10 h]
  · simp [decimalRepr_ge10 (by omega : 10 ≤ n)]

lemma decimalRepr_length_mono : ∀ b a : Nat, a ≤ b →
    (decimalRepr a).length ≤ (decimalRepr b).length := by
  intro b
  induction b using Nat.strong_induction_on with
  | _ b ih =>
    intro a hab
    by_cases hb : b < 10
    · rw [decimalRepr_lt10 hb, decimalRepr_lt10 (by omega)]
      simp
    · rw [decimalRepr_ge10 (by omega : 10 ≤ b)]
      by_cases ha : a < 10
      · simp [decimalRepr_lt10 ha]
      · rw [decimalRepr_ge10 (by omega : 10 ≤ a)]
        have hd : b / 10 < b := Nat.div_lt_self (by omega) (by omega)
        have := ih (b / 10) hd (a / 10) (Nat.div_le_div_right hab)
        simp only [List.length_append, List.length_cons, List.length_nil]
        omega

lemma decimalRepr_length_le : ∀ k n : Nat, 1 ≤ k → n < 10 ^ k →
    (decimalRepr n).length ≤ k := by
  intro k
  induction k with
  | zero => omega
  | succ m ih =>
    intro n _ hn
    by_cases h10 : n < 10
    · rw [decimalRepr_lt10 h10]; simp
    · rw [decimalRepr_ge10 (by omega : 10 ≤ n)]
      have hm : 1 ≤ m := by
        by_contra hc
        have : m = 0 := by omega
        subst this
        simp [pow_succ] at hn
        omega
      have hlt : n / 10 < 10 ^ m := by
        rw [Nat.div_lt_iff_lt_mul (by omega)]
        calc n < 10 ^ (m + 1) := hn
        _ = 10 ^ m * 10 := by rw [pow_succ]
      have := ih (n / 10) hm hlt
      simp only [List.length_append, List.length_cons, List.length_nil]
      omega

lemma decimalRepr_head_pos : ∀ n : Nat, 1 ≤ n →
    ∃ h t, decimalRepr n = h :: t ∧ '0' < h := by
  intro n
  induction n using Nat.strong_induction_on with
  | _ n ih =>
    intro h1
    by_cases h10 : n < 10
    · exact ⟨digitChar n, [], decimalRepr_lt10 h10, zero_lt_digitChar h1 h10⟩
    · have hd : n / 10 < n := Nat.div_lt_self (by omega) (by omega)
      obtain ⟨h, t, heq, hpos⟩ := ih (n / 10) hd (by omega : 1 ≤ n / 10)
      refine ⟨h, t ++ [digitChar (n % 10)], ?_, hpos⟩
      rw [decimalRepr_ge10 (by omega : 10 ≤ n), heq]
      simp

lemma lex_append_left : ∀ (l s₁ s₂ : List Char),
    List.Lex (· < ·) s₁ s₂ → List.Lex (· < ·) (l ++ s₁) (l ++ s₂) := by
  intro l s₁ s₂ h
  induction l with
  | nil => exact h
  | cons c cs ih => exact List.Lex.cons ih

lemma lex_append_of_length_eq : ∀ {l₁ l₂ : List Char} (s₁ s₂ : List Char),
    List.Lex (· < ·) l₁ l₂ → l₁.length = l₂.length →
    List.Lex (· < ·) (l₁ ++ s₁) (l₂ ++ s₂) := by
  intro l₁ l₂ s₁ s₂ h
  induction h with
  | nil => intro hlen; simp at hlen
  | @cons a t₁ t₂ _ ih =>
    intro hlen
    simp only [List.length_cons, Nat.succ.injEq] at hlen
    exact List.Lex.cons (ih hlen)
  | rel hr => intro _; exact List.Lex.rel hr

lemma decimalRepr_lex : ∀ b a : Nat, a < b →
    (decimalRepr a).length = (decimalRepr b).length →
    List.Lex (· < ·) (decimalRepr a) (decimalRepr b) := by
  intro b
  induction b using Nat.strong_induction_on with
  | _ b ih =>
    intro a hab hlen
    by_cases hb : b < 10
    · rw [decimalRepr_lt10 (by omega : a < 10), decimalRepr_lt10 hb]
      exact List.Lex.rel (digitChar_lt_digitChar hab hb)
    · by_cases ha : a < 10
      · exfalso
        rw [decimalRepr_lt10 ha, decimalRepr_ge10 (by omega : 10 ≤ b)] at hlen
        have := List.length_pos.mpr (decimalRepr_ne_nil (b / 10))
        simp only [List.length_append, List.length_cons, List.length_nil] at hlen
        omega
      · rw [decimalRepr_ge10 (by omega : 10 ≤ a), decimalRepr_ge10 (by omega : 10 ≤ b)]
        rw [decimalRepr_ge10 (by omega : 10 ≤ a), decimalRepr_ge10 (by omega : 10 ≤ b)] at hlen
        simp only [List.length_append, List.length_cons, List.length_nil] at hlen
        have hdiv : a / 10 ≤ b / 10 := Nat.div_le_div_right (by omega)
        rcases Nat.lt_or_ge (a / 10) (b / 10) with hlt | hge
        · have hd : b / 10 < b := Nat.div_lt_self (by omega) (by omega)
          exact lex_append_of_length_eq _ _ (ih (b / 10) hd (a / 10) hlt (by omega)) (by omega)
        · have heq : a / 10 = b / 10 := by omega
          have hmod : a % 10 < b % 10 := by omega
          rw [heq]
          exact lex_append_left _ _ _
            (List.Lex.rel (digitChar_lt_digitChar hmod (Nat.mod_lt _ (by omega))))

lemma pad5_length (n : Nat) (h : n ≤ 99999) : (pad5 n).length = 5 := by
  have := decimalRepr_length_le 5 n (by omega) (by norm_num; omega)
  simp only [pad5, List.length_append, List.length_replicate]
  omega

lemma pad5_lex {a b : Nat} (hab : a < b) (hb : b ≤ 99999) :
    List.Lex (· < ·) (pad5 a) (pad5 b) := by
  have hla : (decimalRepr a).length ≤ (decimalRepr b).length :=
    decimalRepr_length_mono b a (by omega)
  have hlb : (decimalRepr b).length ≤ 5 :=
    decimalRepr_length_le 5 b (by omega) (by norm_num; omega)
  rcases Nat.lt_or_ge (decimalRepr a).length (decimalRepr b).length with hlt | hge
  · -- a has fewer digits: at the first differing position, pad5 a has '0',
    -- pad5 b has the positive leading digit of b
    obtain ⟨h, t, heq, hpos⟩ := decimalRepr_head_pos b (by omega)
    have hsplit : 5 - (decimalRepr a).length =
        (5 - (decimalRepr b).length) + ((decimalRepr b).length - (decimalRepr a).length) := by
      omega
    simp only [pad5, hsplit, List.replicate_add, List.append_assoc]
    apply lex_append_left
    have hk : (decimalRepr b).length - (decimalRepr a).length =
        ((decimalRepr b).length - (decimalRepr a).length - 1) + 1 := by omega
    rw [hk, heq]
    exact List.Lex.rel hpos
  · have hlen : (decimalRepr a).length = (decimalRepr b).length := by omega
    simp only [pad5, hlen]
    apply lex_append_left
    exact decimalRepr_lex b a hab hlen

lemma gcsDestObject_lt {docID : String} {a b : Nat} (hab : a < b) (hb : b ≤ 99999) :
    gcsDestObject docID a < gcsDestObject docID b := by
  rw [String.lt_iff_toList_lt]
  show List.Lex (· < ·) (gcsDestObject docID a).data (gcsDestObject docID b).data
  simp only [gcsDestObject, String.data_append, List.append_assoc]
  apply lex_append_left
  apply lex_append_left
  exact lex_append_of_length_eq _ _ (pad5_lex hab hb)
    (by rw [pad5_length a (by omega), pad5_length b hb])

/-! ## Helper lemmas: process traces -/

lemma filterMap_effectStatus_map_uploadPage (keys : List String) :
    List.filterMap effectStatus (keys.map Effect.uploadPage) = [] := by
  induction keys with
  | nil => rfl
  | cons k ks ih => simp [effectStatus, ih]

lemma handleErrorGo_mem (env : Env) (docID msg om : String)
    (huf : env.updateFailed = .ok ()) :
    Effect.updateRecord docID "FAILED" (some (msg ++ ": " ++ om)) none ∈
      (handleErrorGo env docID msg om).2 := by
  simp [handleErrorGo, updateStatusGo, huf, colon_append_ne_empty msg om]

lemma processGo_failed_update_mem (env : Env) (ev : GCSEvent) (sfh docID m : String)
    (ht : env.tempDir = .ok ()) (hd : env.download = .ok ())
    (hh : env.fileHash = .ok sfh) (hq : env.dupQuery = .ok [])
    (hc : env.createDoc = .ok docID) (huf : env.updateFailed = .ok ())
    (hres : (processGo env ev).1 = .error m) :
    Effect.updateRecord docID "FAILED" (some m) none ∈ (processGo env ev).2 ∧
      m ≠ "" := by
  rcases ho : env.optimize with mo | ⟨⟩
  · have hm : "failed to validate/optimize PDF" ++ ": " ++ mo = m := by
      simpa [processGo, processBodyGo, optimizeAndPrepareGo, handleErrorGo,
        ht, hd, hh, hq, hc, ho] using hres
    subst hm
    refine ⟨?_, colon_append_ne_empty _ _⟩
    simp [processGo, processBodyGo, optimizeAndPrepareGo, handleErrorGo, updateStatusGo,
      ht, hd, hh, hq, hc, ho, huf, colon_append_ne_empty]
    exact append_ne_empty _ (by decide)
  rcases hp : env.pageCountRes with mp | n
  · have hm : "failed to get page count" ++ ": " ++ mp = m := by
      simpa [processGo, processBodyGo, optimizeAndPrepareGo, handleErrorGo,
        ht, hd, hh, hq, hc, ho, hp] using hres
    subst hm
    refine ⟨?_, colon_append_ne_empty _ _⟩
    simp [processGo, processBodyGo, optimizeAndPrepareGo, handleErrorGo, updateStatusGo,
      ht, hd, hh, hq, hc, ho, hp, huf, colon_append_ne_empty]
    exact append_ne_empty _ (by decide)
  rcases hs : env.split with ms | ⟨⟩
  · have hm : "failed to split PDF" ++ ": " ++ ms = m := by
      simpa [processGo, processBodyGo, optimizeAndPrepareGo, handleErrorGo,
        ht, hd, hh, hq, hc, ho, hp, hs] using hres
    subst hm
    refine ⟨?_, colon_append_ne_empty _ _⟩
    simp [processGo, processBodyGo, optimizeAndPrepareGo, handleErrorGo, updateStatusGo,
      ht, hd, hh, hq, hc, ho, hp, hs, huf, colon_append_ne_empty]
    exact append_ne_empty _ (by decide)
  rcases hus : env.updateSplitting with mus | ⟨⟩
  · have hm : "failed to update status to SPLITTING" ++ ": " ++ mus = m := by
      simpa [processGo, processBodyGo, optimizeAndPrepareGo, handleErrorGo,
        ht, hd, hh, hq, hc, ho, hp, hs, hus] using hres
    subst hm
    refine ⟨?_, colon_append_ne_empty _ _⟩
    simp [processGo, processBodyGo, optimizeAndPrepareGo, handleErrorGo, updateStatusGo,
      ht, hd, hh, hq, hc, ho, hp, hs, hus, huf, colon_append_ne_empty]
    exact append_ne_empty _ (by decide)
  rcases hua : env.uploadAggregate with mua | ⟨⟩
  · have hm : "one or more pages failed to upload" ++ ": " ++ mua = m := by
      simpa [processGo, processBodyGo, optimizeAndPrepareGo, uploadSplitPagesGo, handleErrorGo,
        ht, hd, hh, hq, hc, ho, hp, hs, hus, hua] using hres
    subst hm
    refine ⟨?_, colon_append_ne_empty _ _⟩
    simp [processGo, processBodyGo, optimizeAndPrepareGo, uploadSplitPagesGo, handleErrorGo,
      updateStatusGo, ht, hd, hh, hq, hc, ho, hp, hs, hus, hua, huf, colon_append_ne_empty]
    exact append_ne_empty _ (by decide)
  rcases hma : env.marshal with mma | ⟨⟩
  · have hm : "failed to marshal workflow payload" ++ ": " ++ mma = m := by
      simpa [processGo, processBodyGo, optimizeAndPrepareGo, uploadSplitPagesGo,
        triggerWorkflowGo, handleErrorGo,
        ht, hd, hh, hq, hc, ho, hp, hs, hus, hua, hma] using hres
    subst hm
    refine ⟨?_, colon_append_ne_empty _ _⟩
    simp [processGo, processBodyGo, optimizeAndPrepareGo, uploadSplitPagesGo, triggerWorkflowGo,
      handleErrorGo, updateStatusGo,
      ht, hd, hh, hq, hc, ho, hp, hs, hus, hua, hma, huf, colon_append_ne_empty]
    exact append_ne_empty _ (by decide)
  rcases hce : env.createExecution with mce | ⟨⟩
  · have hm : "failed to trigger workflow execution" ++ ": " ++ mce = m := by
      simpa [processGo, processBodyGo, optimizeAndPrepareGo, uploadSplitPagesGo,
        triggerWorkflowGo, handleErrorGo,
        ht, hd, hh, hq, hc, ho, hp, hs, hus, hua, hma, hce] using hres
    subst hm
    refine ⟨?_, colon_append_ne_empty _ _⟩
    simp [processGo, processBodyGo, optimizeAndPrepareGo, uploadSplitPagesGo, triggerWorkflowGo,
      handleErrorGo, updateStatusGo,
      ht, hd, hh, hq, hc, ho, hp, hs, hus, hua, hma, hce, huf, colon_append_ne_empty]
    exact append_ne_empty _ (by decide)
  exfalso
  simp [processGo, processBodyGo, optimizeAndPrepareGo, uploadSplitPagesGo, triggerWorkflowGo,
    ht, hd, hh, hq, hc, ho, hp, hs, hus, hua, hma, hce] at hres

lemma processGo_fst_ignores_updateFailed (t dn : Except String Unit)
    (fh : Except String String) (q : Except String (List String))
    (c : Except String String) (o : Except String Unit) (p : Except String Nat)
    (sp us ua ma ce uf uf' : Except String Unit) (ev : GCSEvent) :
    (processGo (Env.mk t dn fh q c o p sp us ua ma ce uf) ev).1 =
    (processGo (Env.mk t dn fh q c o p sp us ua ma ce uf') ev).1 := by
  rcases t with mt | ⟨⟩
  · rfl
  rcases dn with md | ⟨⟩
  · rfl
  rcases fh with mf | sfh
  · rfl
  rcases q with mq | ls
  · rfl
  rcases ls with _ | ⟨d0, ds⟩
  case ok.ok.ok.cons => simp [processGo, processBodyGo]
  rcases c with mc | docID
  · rfl
  rcases o with mo | ⟨⟩
  · rfl
  rcases p with mp | n
  · rfl
  rcases sp with ms | ⟨⟩
  · rfl
  rcases us with mus | ⟨⟩
  · rfl
  rcases ua with mua | ⟨⟩
  · rfl
  rcases ma with mma | ⟨⟩
  · rfl
  rcases ce with mce | ⟨⟩
  · rfl
  rfl

/-! ## Helper lemmas: uploadFile retry cases -/

lemma uploadFileGo_retry_cases (attempt : Nat → Option String) (cancel : Nat → Bool)
    (ctxErr d : String) (hnc : ∀ i, cancel i = false) :
    (uploadFileGo attempt cancel ctxErr d).attemptsMade ≤ 4 ∧
    ((∃ k, k < 4 ∧ attempt k = none) →
      (uploadFileGo attempt cancel ctxErr d).result = .ok) ∧
    (∀ e3, attempt 0 ≠ none → attempt 1 ≠ none → attempt 2 ≠ none →
      attempt 3 = some e3 →
      uploadFileGo attempt cancel ctxErr d =
        ⟨.failedAllRetries d e3, 4, [1, 2, 4, 8]⟩) := by
  rcases h0 : attempt 0 with _ | e0
  · refine ⟨?_, fun _ => ?_, fun e3 hn0 _ _ _ => absurd rfl hn0⟩ <;>
      simp [uploadFileGo, uploadFileFrom, h0]
  rcases h1 : attempt 1 with _ | e1
  · refine ⟨?_, fun _ => ?_, fun e3 _ hn1 _ _ => absurd rfl hn1⟩ <;>
      simp [uploadFileGo, uploadFileFrom, h0, h1, hnc]
  rcases h2 : attempt 2 with _ | e2
  · refine ⟨?_, fun _ => ?_, fun e3 _ _ hn2 _ => absurd rfl hn2⟩ <;>
      simp [uploadFileGo, uploadFileFrom, h0, h1, h2, hnc]
  rcases h3 : attempt 3 with _ | e3
  · refine ⟨?_, fun _ => ?_, fun e3 _ _ _ hs3 => by cases hs3⟩ <;>
      simp [uploadFileGo, uploadFileFrom, h0, h1, h2, h3, hnc]
  refine ⟨?_, ?_, fun e3' _ _ _ hs3 => ?_⟩
  · simp [uploadFileGo, uploadFileFrom, h0, h1, h2, h3, hnc]
  · rintro ⟨k, hk, hnone⟩
    interval_cases k <;> simp_all
  · injection hs3 with he
    subst he
    simp [uploadFileGo, uploadFileFrom, h0, h1, h2, h3, hnc]

lemma uploadFileGo_first_success (attempt : Nat → Option String) (cancel : Nat → Bool)
    (ctxErr d : String) (hnc : ∀ i, cancel i = false) (k : Nat) (hk : k < 4)
    (hs : attempt k = none) (hp : ∀ j, j < k → attempt j ≠ none) :
    uploadFileGo attempt cancel ctxErr d = ⟨.ok, k + 1, [1, 2, 4, 8].take k⟩ := by
  interval_cases k
  · simp [uploadFileGo, uploadFileFrom, hs]
  · obtain ⟨e0, h0⟩ := Option.ne_none_iff_exists'.mp (hp 0 (by omega))
    simp [uploadFileGo, uploadFileFrom, h0, hs, hnc]
  · obtain ⟨e0, h0⟩ := Option.ne_none_iff_exists'.mp (hp 0 (by omega))
    obtain ⟨e1, h1⟩ := Option.ne_none_iff_exists'.mp (hp 1 (by omega))
    simp [uploadFileGo, uploadFileFrom, h0, h1, hs, hnc]
  · obtain ⟨e0, h0⟩ := Option.ne_none_iff_exists'.mp (hp 0 (by omega))
    obtain ⟨e1, h1⟩ := Option.ne_none_iff_exists'.mp (hp 1 (by omega))
    obtain ⟨e2, h2⟩ := Option.ne_none_iff_exists'.mp (hp 2 (by omega))
    simp [uploadFileGo, uploadFileFrom, h0, h1, h2, hs, hnc]

/-! ## Claim theorems -/

/-- C1: the claim states that for every object name and content, when an
object already exists, `SaveToGCSAtomically` returns success no matter
whether the 412 precondition failure surfaces during the copy or during the
finalize/close. The code contradicts this: evaluated at an input where the
copy succeeds and the finalize reports the 412 precondition failure (the
usual case, since the GCS writer buffers small contents until `Close`), the
function returns an error, while the same failure during the copy is treated
as success and leaves the stored content unchanged. -/
theorem saveToGCSAtomically_close_precondition_result :
    saveToGCSAtomically (.precondFail "googleapi: Error 412: conditionNotMet") .ok = .ok () ∧
    saveToGCSAtomically .ok (.precondFail "googleapi: Error 412: conditionNotMet") =
      .error ("failed to finalize GCS write: " ++ "googleapi: Error 412: conditionNotMet") ∧
    conditionalCreateStore (fun n => if n = "doc-1/00001.md" then some "old content" else none)
      "doc-1/00001.md" "new content" .ok (.precondFail "googleapi: Error 412: conditionNotMet")
      "doc-1/00001.md" = some "old content" := by
  refine ⟨rfl, rfl, ?_⟩
  simp [conditionalCreateStore]

/-- C2: when the duplicate query (findByHash, limit 1) returns at least one
document, `Process` returns success and performs no ledger write, no page
upload and no workflow handoff — the only remaining effect is the deferred
temp directory removal. -/
theorem process_duplicate_clean_exit (env : Env) (e : GCSEvent) (fh d : String)
    (l : List String) (ht : env.tempDir = .ok ()) (hd : env.download = .ok ())
    (hh : env.fileHash = .ok fh) (hq : env.dupQuery = .ok (d :: l)) :
    processGo env e = (.ok (), [Effect.removeTempDir]) := by
  simp [processGo, processBodyGo, ht, hd, hh, hq]

/-- Witness for C2 at a concrete environment whose duplicate query finds an
existing record. -/
theorem process_duplicate_clean_exit_witness :
    processGo (Env.mk (.ok ()) (.ok ()) (.ok "abc123") (.ok ["existing-doc"]) (.ok "unused")
        (.ok ()) (.ok 3) (.ok ()) (.ok ()) (.ok ()) (.ok ()) (.ok ()) (.ok ()))
      ⟨"uploads", "report.pdf"⟩ = (.ok (), [Effect.removeTempDir]) :=
  process_duplicate_clean_exit _ _ "abc123" "existing-doc" [] rfl rfl rfl rfl

/-- C3: absent cancellation, `uploadFile` makes at most 4 attempts; if the
first success is at attempt `k` (0-indexed, so up to the 4th attempt) it
returns success after completed backoff waits drawn from the schedule
1s, 2s, 4s, 8s; if any attempt up to the 4th succeeds the result is success;
and if all 4 attempts fail it returns the wrapped last error after the full
wait schedule. -/
theorem uploadFile_retry_backoff_contract (attempt : Nat → Option String)
    (cancel : Nat → Bool) (ctxErr d : String) (hnc : ∀ i, cancel i = false) :
    (uploadFileGo attempt cancel ctxErr d).attemptsMade ≤ 4 ∧
    ((∃ k, k < 4 ∧ attempt k = none) →
      (uploadFileGo attempt cancel ctxErr d).result = .ok) ∧
    (∀ k, k < 4 → attempt k = none → (∀ j, j < k → attempt j ≠ none) →
      uploadFileGo attempt cancel ctxErr d = ⟨.ok, k + 1, [1, 2, 4, 8].take k⟩) ∧
    (∀ e3, attempt 0 ≠ none → attempt 1 ≠ none → attempt 2 ≠ none →
      attempt 3 = some e3 →
      uploadFileGo attempt cancel ctxErr d =
        ⟨.failedAllRetries d e3, 4, [1, 2, 4, 8]⟩) :=
  ⟨(uploadFileGo_retry_cases attempt cancel ctxErr d hnc).1,
    (uploadFileGo_retry_cases attempt cancel ctxErr d hnc).2.1,
    fun k hk hs hp => uploadFileGo_first_success attempt cancel ctxErr d hnc k hk hs hp,
    (uploadFileGo_retry_cases attempt cancel ctxErr d hnc).2.2⟩

/-- Witness for C3: an upload that fails 3 times and succeeds on the 4th
attempt is an overall success, after completed waits of 1s, 2s and 4s. -/
theorem uploadFile_retry_backoff_contract_witness :
    uploadFileGo (fun i => if i < 3 then some "upload failed" else none) (fun _ => false)
      "context canceled" "d1/00002.pdf" = ⟨.ok, 4, [1, 2, 4]⟩ :=
  (uploadFile_retry_backoff_contract _ _ "context canceled" "d1/00002.pdf"
    (fun _ => rfl)).2.2.1 3 (by omega) (by decide)
    (fun j hj => by interval_cases j <;> simp)

/-- C4: in every run, the sequence of ledger statuses written is one of the
forward-moving sequences (`VALIDATING`, then optionally `SPLITTING`, with
`FAILED` only as a final entry and never overwritten), and no page upload is
started before the update that sets `SPLITTING` together with `pageCount`. -/
theorem process_status_forward_and_pageCount_persisted_first (env : Env) (ev : GCSEvent) :
    statusTrace (processGo env ev).2 ∈
      ([[], ["VALIDATING"], ["VALIDATING", "SPLITTING"],
        ["VALIDATING", "FAILED"], ["VALIDATING", "SPLITTING", "FAILED"]] :
        List (List String)) ∧
    uploadsAfterPageCountPersisted (processGo env ev).2 = true := by
  obtain ⟨t, dn, fh, q, c, o, p, sp, us, ua, ma, ce, uf⟩ := env
  rcases t with mt | ⟨⟩
  · simp [processGo, statusTrace, uploadsAfterPageCountPersisted]
  rcases dn with md | ⟨⟩
  · simp [processGo, processBodyGo, statusTrace, effectStatus, uploadsAfterPageCountPersisted]
  rcases fh with mf | sfh
  · simp [processGo, processBodyGo, statusTrace, effectStatus, uploadsAfterPageCountPersisted]
  rcases q with mq | ls
  · simp [processGo, processBodyGo, statusTrace, effectStatus, uploadsAfterPageCountPersisted]
  rcases ls with _ | ⟨d0, ds⟩
  case ok.ok.ok.cons =>
    simp [processGo, processBodyGo, statusTrace, effectStatus, uploadsAfterPageCountPersisted]
  rcases c with mc | docID
  · simp [processGo, processBodyGo, statusTrace, effectStatus, uploadsAfterPageCountPersisted]
  rcases o with mo | ⟨⟩
  · rcases uf with muf | ⟨⟩ <;>
      simp [processGo, processBodyGo, optimizeAndPrepareGo, handleErrorGo, updateStatusGo,
        colon_append_ne_empty, statusTrace, effectStatus, uploadsAfterPageCountPersisted]
  rcases p with mp | n
  · rcases uf with muf | ⟨⟩ <;>
      simp [processGo, processBodyGo, optimizeAndPrepareGo, handleErrorGo, updateStatusGo,
        colon_append_ne_empty, statusTrace, effectStatus, uploadsAfterPageCountPersisted]
  rcases sp with ms | ⟨⟩
  · rcases uf with muf | ⟨⟩ <;>
      simp [processGo, processBodyGo, optimizeAndPrepareGo, handleErrorGo, updateStatusGo,
        colon_append_ne_empty, statusTrace, effectStatus, uploadsAfterPageCountPersisted]
  rcases us with mus | ⟨⟩
  · rcases uf with muf | ⟨⟩ <;>
      simp [processGo, processBodyGo, optimizeAndPrepareGo, handleErrorGo, updateStatusGo,
        colon_append_ne_empty, statusTrace, effectStatus, uploadsAfterPageCountPersisted]
  rcases ua with mua | ⟨⟩
  · rcases uf with muf | ⟨⟩ <;>
      simp [processGo, processBodyGo, optimizeAndPrepareGo, uploadSplitPagesGo, handleErrorGo,
        updateStatusGo, colon_append_ne_empty, statusTrace, effectStatus,
        filterMap_effectStatus_map_uploadPage, uploadsAfterPageCountPersisted]
  rcases ma with mma | ⟨⟩
  · rcases uf with muf | ⟨⟩ <;>
      simp [processGo, processBodyGo, optimizeAndPrepareGo, uploadSplitPagesGo, triggerWorkflowGo,
        handleErrorGo, updateStatusGo, colon_append_ne_empty, statusTrace, effectStatus,
        filterMap_effectStatus_map_uploadPage, uploadsAfterPageCountPersisted]
  rcases ce with mce | ⟨⟩
  · rcases uf with muf | ⟨⟩ <;>
      simp [processGo, processBodyGo, optimizeAndPrepareGo, uploadSplitPagesGo, triggerWorkflowGo,
        handleErrorGo, updateStatusGo, colon_append_ne_empty, statusTrace, effectStatus,
        filterMap_effectStatus_map_uploadPage, uploadsAfterPageCountPersisted]
  simp [processGo, processBodyGo, optimizeAndPrepareGo, uploadSplitPagesGo, triggerWorkflowGo,
    statusTrace, effectStatus, filterMap_effectStatus_map_uploadPage,
    uploadsAfterPageCountPersisted]

/-- C5: for every fatal error after the ledger record exists (the first five
pipeline stages succeeded and the duplicate query found nothing) whose
bookkeeping update is reachable, the run's trace contains a `FAILED` update
on that record carrying exactly the returned error message as non-empty
error details; and the value returned by `Process` does not depend on
whether that bookkeeping update succeeds or fails. -/
theorem process_failed_bookkeeping_best_effort :
    (∀ env ev sfh docID m, env.tempDir = .ok () → env.download = .ok () →
      env.fileHash = .ok sfh → env.dupQuery = .ok [] → env.createDoc = .ok docID →
      env.updateFailed = .ok () → (processGo env ev).1 = .error m →
      Effect.updateRecord docID "FAILED" (some m) none ∈ (processGo env ev).2 ∧ m ≠ "") ∧
    (∀ t dn fh q c o p sp us ua ma ce uf uf' ev,
      (processGo (Env.mk t dn fh q c o p sp us ua ma ce uf) ev).1 =
      (processGo (Env.mk t dn fh q c o p sp us ua ma ce uf') ev).1) :=
  ⟨fun env ev sfh docID m ht hd hh hq hc huf hres =>
    processGo_failed_update_mem env ev sfh docID m ht hd hh hq hc huf hres,
    fun t dn fh q c o p sp us ua ma ce uf uf' ev =>
    processGo_fst_ignores_updateFailed t dn fh q c o p sp us ua ma ce uf uf' ev⟩

/-- Witness for C5: a run whose PDF optimization fails records a `FAILED`
update carrying the returned (non-empty) error message. -/
theorem process_failed_bookkeeping_best_effort_witness :
    Effect.updateRecord "doc-1" "FAILED"
        (some ("failed to validate/optimize PDF" ++ ": " ++ "pdfcpu: invalid xref")) none ∈
      (processGo (Env.mk (.ok ()) (.ok ()) (.ok "abc123") (.ok []) (.ok "doc-1")
          (.error "pdfcpu: invalid xref") (.ok 3) (.ok ()) (.ok ()) (.ok ()) (.ok ())
          (.ok ()) (.ok ()))
        ⟨"uploads", "report.pdf"⟩).2 ∧
    ("failed to validate/optimize PDF" ++ ": " ++ "pdfcpu: invalid xref") ≠ "" :=
  process_failed_bookkeeping_best_effort.1 _ _ "abc123" "doc-1" _
    rfl rfl rfl rfl rfl rfl rfl

/-- C6: a failure at any stage before the ledger record is created (temp
directory, download, hash, duplicate query, or the record creation itself)
returns the error with no ledger write in the trace. -/
theorem process_no_ledger_write_before_record (env : Env) (e : GCSEvent) :
    (∀ m, env.tempDir = .error m →
      processGo env e = (.error ("failed to create temp dir: " ++ m), [])) ∧
    (∀ m, env.tempDir = .ok () → env.download = .error m →
      processGo env e = (.error m, [Effect.removeTempDir])) ∧
    (∀ m, env.tempDir = .ok () → env.download = .ok () →
      env.fileHash = .error m →
      processGo env e =
        (.error ("failed to calculate file hash: " ++ m), [Effect.removeTempDir])) ∧
    (∀ m fh, env.tempDir = .ok () → env.download = .ok () →
      env.fileHash = .ok fh → env.dupQuery = .error m →
      processGo env e =
        (.error ("failed to query for duplicates: " ++ m), [Effect.removeTempDir])) ∧
    (∀ m fh, env.tempDir = .ok () → env.download = .ok () →
      env.fileHash = .ok fh → env.dupQuery = .ok [] → env.createDoc = .error m →
      processGo env e =
        (.error ("failed to create master document: " ++ m), [Effect.removeTempDir])) := by
  refine ⟨fun m h => ?_, fun m h1 h2 => ?_, fun m h1 h2 h3 => ?_,
    fun m fh h1 h2 h3 h4 => ?_, fun m fh h1 h2 h3 h4 h5 => ?_⟩ <;>
    simp [processGo, processBodyGo, *]

/-- Witness for C6: a failed download returns its error with the temp
directory removal as the only effect. -/
theorem process_no_ledger_write_before_record_witness :
    processGo (Env.mk (.ok ()) (.error "failed to copy GCS object to local file: timeout")
        (.ok "abc123") (.ok []) (.ok "doc-1") (.ok ()) (.ok 3) (.ok ()) (.ok ()) (.ok ())
        (.ok ()) (.ok ()) (.ok ()))
      ⟨"uploads", "report.pdf"⟩ =
      (.error "failed to copy GCS object to local file: timeout", [Effect.removeTempDir]) :=
  (process_no_ledger_write_before_record _ _).2.1 _ rfl rfl

/-- C7: when the context is cancelled during the backoff wait after attempt
`k` (all attempts so far having failed, all earlier waits having completed),
`uploadFile` returns the cancellation cause with no further attempt, and the
interrupted wait is not completed. -/
theorem uploadFile_cancel_during_backoff (attempt : Nat → Option String)
    (cancel : Nat → Bool) (ctxErr d : String) (k : Nat) (hk : k < 4)
    (hfail : ∀ j, j ≤ k → attempt j ≠ none)
    (hbefore : ∀ j, j < k → cancel j = false)
    (hcancel : cancel k = true) :
    uploadFileGo attempt cancel ctxErr d =
      ⟨.cancelled ctxErr, k + 1, [1, 2, 4, 8].take k⟩ := by
  interval_cases k
  · obtain ⟨e0, h0⟩ := Option.ne_none_iff_exists'.mp (hfail 0 (by omega))
    simp [uploadFileGo, uploadFileFrom, h0, hcancel]
  · obtain ⟨e0, h0⟩ := Option.ne_none_iff_exists'.mp (hfail 0 (by omega))
    obtain ⟨e1, h1⟩ := Option.ne_none_iff_exists'.mp (hfail 1 (by omega))
    simp [uploadFileGo, uploadFileFrom, h0, h1, hcancel, hbefore 0 (by omega)]
  · obtain ⟨e0, h0⟩ := Option.ne_none_iff_exists'.mp (hfail 0 (by omega))
    obtain ⟨e1, h1⟩ := Option.ne_none_iff_exists'.mp (hfail 1 (by omega))
    obtain ⟨e2, h2⟩ := Option.ne_none_iff_exists'.mp (hfail 2 (by omega))
    simp [uploadFileGo, uploadFileFrom, h0, h1, h2, hcancel,
      hbefore 0 (by omega), hbefore 1 (by omega)]
  · obtain ⟨e0, h0⟩ := Option.ne_none_iff_exists'.mp (hfail 0 (by omega))
    obtain ⟨e1, h1⟩ := Option.ne_none_iff_exists'.mp (hfail 1 (by omega))
    obtain ⟨e2, h2⟩ := Option.ne_none_iff_exists'.mp (hfail 2 (by omega))
    obtain ⟨e3, h3⟩ := Option.ne_none_iff_exists'.mp (hfail 3 (by omega))
    simp [uploadFileGo, uploadFileFrom, h0, h1, h2, h3, hcancel,
      hbefore 0 (by omega), hbefore 1 (by omega), hbefore 2 (by omega)]

/-- Witness for C7: cancellation during the second backoff wait aborts the
retry loop after 2 attempts with only the first wait completed. -/
theorem uploadFile_cancel_during_backoff_witness :
    uploadFileGo (fun _ => some "upload failed") (fun i => decide (i = 1))
      "context canceled" "d1/00001.pdf" = ⟨.cancelled "context canceled", 2, [1]⟩ :=
  uploadFile_cancel_during_backoff _ _ _ _ 1 (by omega) (fun j _ => by simp)
    (fun j hj => by interval_cases j; rfl) rfl

/-- C8 counterexample: the claim asserts the lexical order of page keys
matches page order for every page count, but with 100000 pages the key of
page 99999 does not sort before the key of page 100000 (both keys being
assigned by `uploadSplitPages`). -/
theorem uploadSplitPages_key_order_counterexample :
    gcsDestObject "d" 99999 ∈ uploadSplitPagesKeys "d" 100000 ∧
    gcsDestObject "d" 100000 ∈ uploadSplitPagesKeys "d" 100000 ∧
    ¬ (gcsDestObject "d" 99999 < gcsDestObject "d" 100000) := by
  refine ⟨?_, ?_, ?_⟩
  · exact List.mem_map.mpr ⟨99998, List.mem_range.mpr (by norm_num), rfl⟩
  · exact List.mem_map.mpr ⟨99999, List.mem_range.mpr (by norm_num), rfl⟩
  · simp only [String.lt_iff_toList_lt]
    decide

/-- C8 (amended): for every document ID and page count of at most 99999 (the
zero-padding width not exceeded), `uploadSplitPages` assigns page `i` the key
`{documentID}/{i:05d}.pdf`, and for pages `i < j` the key of page `i` sorts
lexically before the key of page `j`. -/
theorem uploadSplitPages_key_assignment_order (docID : String) (N i j : Nat)
    (h1 : 1 ≤ i) (hij : i < j) (hjN : j ≤ N) (hN : N ≤ 99999) :
    gcsDestObject docID i ∈ uploadSplitPagesKeys docID N ∧
    gcsDestObject docID j ∈ uploadSplitPagesKeys docID N ∧
    gcsDestObject docID i < gcsDestObject docID j := by
  refine ⟨?_, ?_, gcsDestObject_lt hij (by omega)⟩
  · exact List.mem_map.mpr ⟨i - 1, List.mem_range.mpr (by omega), by
      rw [Nat.sub_add_cancel h1]⟩
  · exact List.mem_map.mpr ⟨j - 1, List.mem_range.mpr (by omega), by
      rw [Nat.sub_add_cancel (by omega)]⟩

/-- Witness for the amended C8 at a 3-page document. -/
theorem uploadSplitPages_key_assignment_order_witness :
    gcsDestObject "doc-1" 1 ∈ uploadSplitPagesKeys "doc-1" 3 ∧
    gcsDestObject "doc-1" 3 ∈ uploadSplitPagesKeys "doc-1" 3 ∧
    gcsDestObject "doc-1" 1 < gcsDestObject "doc-1" 3 :=
  uploadSplitPages_key_assignment_order "doc-1" 3 1 3
    (by omega) (by omega) (by omega) (by omega)

/-- C9: on every terminating run in which the temp directory was created,
the last effect of the run is the removal of that directory — the deferred
`os.RemoveAll` runs on every exit path. -/
theorem process_tempdir_removed_on_exit (env : Env) (e : GCSEvent)
    (ht : env.tempDir = .ok ()) :
    (processGo env e).2.getLast? = some Effect.removeTempDir := by
  simp [processGo, ht]

/-- Witness for C9 at a fully successful run. -/
theorem process_tempdir_removed_on_exit_witness :
    (processGo (Env.mk (.ok ()) (.ok ()) (.ok "abc123") (.ok []) (.ok "doc-1") (.ok ())
        (.ok 3) (.ok ()) (.ok ()) (.ok ()) (.ok ()) (.ok ()) (.ok ()))
      ⟨"uploads", "report.pdf"⟩).2.getLast? = some Effect.removeTempDir :=
  process_tempdir_removed_on_exit _ _ rfl

/-- C10: when all 4 attempts fail and the earlier waits complete, the loop
performs one more full backoff wait (8s) after the final failed attempt and
then returns the wrapped last error; if the context is cancelled during that
final wait, the cancellation cause is returned instead and the last upload
error is discarded. -/
theorem uploadFile_final_backoff_wait (attempt : Nat → Option String)
    (cancel : Nat → Bool) (ctxErr d : String) (e0 e1 e2 e3 : String)
    (h0 : attempt 0 = some e0) (h1 : attempt 1 = some e1)
    (h2 : attempt 2 = some e2) (h3 : attempt 3 = some e3)
    (hbefore : ∀ j, j < 3 → cancel j = false) :
    (cancel 3 = false →
      uploadFileGo attempt cancel ctxErr d =
        ⟨.failedAllRetries d e3, 4, [1, 2, 4, 8]⟩) ∧
    (cancel 3 = true →
      uploadFileGo attempt cancel ctxErr d =
        ⟨.cancelled ctxErr, 4, [1, 2, 4]⟩) := by
  constructor <;> intro hc <;>
    simp [uploadFileGo, uploadFileFrom, h0, h1, h2, h3, hc,
      hbefore 0 (by omega), hbefore 1 (by omega), hbefore 2 (by omega)]

/-- Witness for C10: cancellation during the final 8s wait returns the
cancellation cause with only the first three waits completed. -/
theorem uploadFile_final_backoff_wait_witness :
    uploadFileGo (fun _ => some "upload failed") (fun i => decide (i = 3))
      "context canceled" "d1/00001.pdf" = ⟨.cancelled "context canceled", 4, [1, 2, 4]⟩ :=
  (uploadFile_final_backoff_wait _ _ _ _ "upload failed" "upload failed" "upload failed"
    "upload failed" rfl rfl rfl rfl (fun j hj => by interval_cases j <;> rfl)).2 rfl
